import Mathlib

/-!
Verification development for the pythoneda-shared-pythonlang/domain runtime
core: the event dispatch/cascade engine (PythonEDA.accept), the listener
directory (event_listener.py), the port registry (ports.py), the invariant
context (invariants.py), the value-object equality/hash contract
(value_object.py) and the causal event-chain tracker (flow.py).

Python dictionaries are embedded as functions into Option, Python lists as
Lean lists, and Python's stable `sorted` as List.mergeSort on a boolean key
comparison.  Machine-level concerns (uuid generation, timestamps, logging)
are irrelevant to the verified properties and are not modelled.
-/

namespace PythonedaDomain

/-! ### Events, as seen by the dispatch engine

An event carries a unique identifier, the (runtime) class it belongs to and
the identifiers of its direct causal predecessors
(pythoneda/shared/event.py).  Classes are represented by numeric tags. -/

structure Ev where
  id : Nat
  cls : Nat
  prev : List Nat
deriving DecidableEq, Repr

/-! ### Dispatch engine (src/PythonEDA/application/pythoneda.py, accept)

The engine consults a listener directory (EventListener.listeners_for) and
invokes each listener class's accept, collecting the produced events.  The
directory and the per-listener handlers are modelled as the functions they
provide: listenersFor maps an event class to the priority-ordered listener
class tags, handler gives the events a listener's accept produces for an
event.  Handlers are total (handler exceptions are out of scope). -/

structure Directory where
  listenersFor : Nat → List Nat
  handler : Nat → Ev → List Ev

/-- The events produced by one round of listener invocations for an event:
the body of the first loop of PythonEDA.accept, which extends firstEvents
with each listener's resulting events (extending with an empty result is a
no-op, so the guard on emptiness is absorbed by flatMap). -/
def gen1 (d : Directory) (e : Ev) : List Ev :=
  (d.listenersFor e.cls).flatMap (fun l => d.handler l e)

/-- PythonEDA.accept (src/PythonEDA/application/pythoneda.py lines 59-72),
with explicit fuel for the unbounded recursion (the source enforces no
cycle detection; all claims are settled at sufficient fuel).  The body of
the source contains no raise statement: for a falsy (None) event it returns
the empty list, otherwise it gathers the first generation, and if that is
non-empty it returns it followed by the recursive dispatch of each of its
events, in order. -/
def acceptEngine (d : Directory) : Nat → Option Ev → List Ev
  | _, none => []
  | 0, some _ => []
  | fuel + 1, some e =>
    let firstEvents := gen1 d e
    if firstEvents.length > 0 then
      firstEvents ++ firstEvents.flatMap (fun ev => acceptEngine d fuel (some ev))
    else []

/-- Generation n of the cascade rooted at an event: generation 0 is the
root itself, generation n+1 collects the events produced by one round of
listener invocations on generation n (the spec's notion of generation). -/
def generation (d : Directory) (e : Ev) : Nat → List Ev
  | 0 => [e]
  | n + 1 => (generation d e n).flatMap (gen1 d)

/-! ### Listener-level accept of the historical snapshot
(src/pythoneda/event_listener.py lines 342-363), the one place in the
repository that raises UnsupportedEvent. -/

inductive AcceptError where
  | unsupportedEvent (e : Ev)
deriving DecidableEq, Repr

structure LegacyDirectory where
  listenersFor : Nat → List Nat
  listenMethodFor : Nat → Nat → Option (Ev → List Ev)

/-- EventListener.accept from the historical snapshot: raises
UnsupportedEvent when listeners_for is empty; otherwise, per listener,
looks up the @listen method (a missing method is logged and contributes
nothing) and appends its result as one element. -/
def legacyAccept (d : LegacyDirectory) (e : Ev) : Except AcceptError (List (List Ev)) :=
  let listeners := d.listenersFor e.cls
  if listeners.length = 0 then
    .error (.unsupportedEvent e)
  else
    .ok (listeners.flatMap (fun l =>
      match d.listenMethodFor l e.cls with
      | none => []
      | some m => [m e]))

/-! ### Port registry (src/pythoneda/shared/ports.py)

An adapter candidate is modelled by what Ports.sort_by_priority observes of
it: whether the class declares a default_priority class method (and the
value it returns), whether it has a priority method (and the value
instance.priority() would return), and whether instantiate(app) yields a
truthy instance.  requiredInvariants records the invariant requirements the
specification attributes to adapters; the source registry never reads it. -/

structure Adapter where
  aid : Nat
  defaultPriority : Option Int
  priorityMethod : Option Int
  instantiateOk : Bool
  requiredInvariants : List (Nat × Nat)
deriving DecidableEq, Repr

/-- Ports.sort_by_priority (ports.py lines 156-176): result starts at -1,
is replaced by default_priority() when that class method exists, and is
then replaced by instance.priority() whenever a priority method exists and
instantiation yields a truthy instance. -/
def sortByPriority (a : Adapter) : Int :=
  let result : Int := -1
  let result : Int :=
    match a.defaultPriority with
    | some p => p
    | none => result
  match a.priorityMethod with
  | some p => if a.instantiateOk then p else result
  | none => result

/-- Ports.resolve_all (ports.py lines 178-191): takes the raw mapping for
the port (empty when unregistered) and sorts it by the sort_by_priority
key; Python's sorted is a stable sort, embedded as the stable
insertionSort. -/
def resolveAll (mappings : Nat → List Adapter) (port : Nat) : List Adapter :=
  (mappings port).insertionSort (fun a b => sortByPriority a ≤ sortByPriority b)

/-- Modelled from the spec (section 4.4): an adapter with no declared
invariant requirements always matches; one with requirements matches only
if every required invariant's currently-bound value equals the
requirement. -/
def matchesBoundInvariants (bound : Nat → Option Nat) (a : Adapter) : Bool :=
  a.requiredInvariants.all (fun r => bound r.1 == some r.2)

/-- Modelled from the spec (section 4.3): resolveAll as the specification
describes it, filtering the raw mapping through the active invariant
context before sorting by priority ascending. -/
def resolveAllSpec (mappings : Nat → List Adapter) (bound : Nat → Option Nat)
    (port : Nat) : List Adapter :=
  ((mappings port).filter (matchesBoundInvariants bound)).insertionSort
    (fun a b => sortByPriority a ≤ sortByPriority b)

/-! ### Invariant context (src/pythoneda/shared/invariants.py)

The thread-local storage is a dictionary from target (scope; None is the
global scope) to a dictionary from invariant declared type to the bound
invariant; both dictionaries are embedded as functions into Option.
Targets/scopes and invariant types and values are numeric tags. -/

abbrev InvMap := Nat → Option Nat

abbrev InvState := Option Nat → Option InvMap

/-- Invariants.bind (invariants.py lines 80-92): fetches the dictionary
bound to the target (defaulting to an empty one), stores the invariant
under its declared type and stores the dictionary back under the target. -/
def bindInv (s : InvState) (declType v : Nat) (target : Option Nat) : InvState :=
  let boundInvariants : InvMap := (s target).getD (fun _ => none)
  fun t =>
    if t = target then
      some (fun ty => if ty = declType then some v else boundInvariants ty)
    else s t

/-- Invariants.apply (invariants.py lines 106-126): looks up the dictionary
bound to the target, falling back to the one bound to None when the target
has none at all, and reads the invariant type from it. -/
def applyInv (s : InvState) (invType : Nat) (target : Option Nat) : Option Nat :=
  let boundInvariants :=
    match s target with
    | some b => some b
    | none => s none
  match boundInvariants with
  | some b => b invType
  | none => none

/-- The binding of an invariant type in the global (None) scope. -/
def globalBinding (s : InvState) (invType : Nat) : Option Nat :=
  match s none with
  | some b => b invType
  | none => none

/-! ### Listener directory (src/pythoneda/shared/event_listener.py)

Listener classes, event classes and handler functions are numeric tags.
The registration state holds the three module-level dictionaries:
_event_listeners (class key to event classes, appended without a
membership check), _event_listeners_by_event_class (event class to
listener classes, appended with a membership check) and
_event_listener_methods (class key to event class to method). -/

structure RegState where
  listeners : Nat → Option (List Nat)
  byEventClass : Nat → Option (List Nat)
  methods : Nat → Option (Nat → Option Nat)

/-- The empty registration state. -/
def emptyRegState : RegState :=
  ⟨fun _ => none, fun _ => none, fun _ => none⟩

/-- _process_pending_event_listener (event_listener.py lines 199-244) for a
pending @listen-decorated triple: the class key's listener list is extended
unconditionally, the event class's listener-class list is extended only
when the class is not already present, and the method dictionary entry is
overwritten. -/
def processPendingEventListener (s : RegState) (clsKey evCls fn : Nat) : RegState :=
  let auxListeners := ((s.listeners clsKey).getD []) ++ [evCls]
  let auxByEvent := (s.byEventClass evCls).getD []
  let auxByEvent :=
    if clsKey ∈ auxByEvent then auxByEvent else auxByEvent ++ [clsKey]
  let auxMethods := (s.methods clsKey).getD (fun _ => none)
  { listeners := fun k => if k = clsKey then some auxListeners else s.listeners k
    byEventClass := fun k => if k = evCls then some auxByEvent else s.byEventClass k
    methods := fun k =>
      if k = clsKey then some (fun e => if e = evCls then some fn else auxMethods e)
      else s.methods k }

/-- EventListener._get_priority (event_listener.py lines 368-386): the
classes' default_priority when callable and non-None, else 100.  dp maps a
listener class to the declared priority, none covering both a missing
default_priority method and one returning None. -/
def getPriority (dp : Nat → Option Int) (cls : Nat) : Int :=
  (dp cls).getD 100

/-- EventListener.listeners_for (event_listener.py lines 315-333): the
listener classes registered for the event class (empty when none; the
source also stores the default back into the dictionary, which does not
change any lookup), sorted ascending by _get_priority (Python's stable
sorted) with abstract classes filtered out. -/
def listenersFor (s : RegState) (dp : Nat → Option Int) (isAbstract : Nat → Bool)
    (evCls : Nat) : List Nat :=
  let aux := (s.byEventClass evCls).getD []
  (aux.insertionSort (fun a b => getPriority dp a ≤ getPriority dp b)).filter
    (fun c => !isAbstract c)

/-! ### Value objects (src/pythoneda/shared/value_object.py)

A value object is modelled by its runtime class tag, its generated
identifier and its attribute table (getattr with a None default).  pkOf
gives, per class, the attribute names collected from the
@primary_key_attribute decorators, in declaration order. -/

structure VObj where
  cls : Nat
  vid : Nat
  attrs : Nat → Option Nat

/-- ValueObject.__eq__ (value_object.py lines 799-818): False unless the
other object is an instance of the same class, then True exactly when
every primary-key attribute agrees (getattr with a None default); the
identifier plays no part. -/
def vEq (pkOf : Nat → List Nat) (a b : VObj) : Bool :=
  if a.cls = b.cls then
    (pkOf a.cls).all (fun k => a.attrs k == b.attrs k)
  else false

/-- ValueObject.__hash__ (value_object.py lines 820-833), up to Python's
hash of the final key: the tuple of primary-key attribute values, or the
pair (id, class) when the class declares no primary-key attributes. -/
def vHashKey (pkOf : Nat → List Nat) (a : VObj) : (Nat × Nat) ⊕ List (Option Nat) :=
  let attrs := (pkOf a.cls).map (fun k => a.attrs k)
  if attrs.length = 0 then .inl (a.vid, a.cls) else .inr attrs

/-! ### Flow (src/pythoneda/shared/flow.py)

A flow event carries the identifier, the class tag, the tuple of
primary-key attribute values of its class (the list Python's == compares
after the class check) and the previous event ids. -/

structure FEvent where
  fid : Nat
  cls : Nat
  pk : List Nat
  prev : List Nat
deriving DecidableEq, Repr

/-- Python equality between two events as list membership uses it: same
class and equal primary-key attribute values (ValueObject.__eq__). -/
def pyEq (a b : FEvent) : Bool :=
  a.cls == b.cls && a.pk == b.pk

structure FlowSt where
  firstEvent : Option FEvent
  events : List FEvent
deriving DecidableEq, Repr

/-- Flow.add_event (flow.py lines 69-79): a None event is ignored; the
first event is set when still unset; the event is inserted at position 0
unless an equal event (Python ==) is already in the list. -/
def addEvent (f : FlowSt) (event : Option FEvent) : FlowSt :=
  match event with
  | none => f
  | some e =>
    let fe :=
      match f.firstEvent with
      | none => some e
      | some x => some x
    if f.events.any (fun x => pyEq x e) then ⟨fe, f.events⟩ else ⟨fe, e :: f.events⟩

/-- Flow.__init__ (flow.py lines 40-58): first event None, empty event
list, then add_event(firstEvent). -/
def mkFlow (firstEvent : Option FEvent) : FlowSt :=
  addEvent ⟨none, []⟩ firstEvent

/-- Flow.first_continued_second (flow.py lines 102-131): True when the two
lists are identical; otherwise False when first brings no new item, False
when there is no common item, False when the positions (list.index) in
second of the common items of first are not already in ascending order
(Python compares the index list with its sorted copy), and True
otherwise. -/
def firstContinuedSecond (first second : List Nat) : Bool :=
  if first = second then true
  else if !(first.any (fun item => !(second.contains item))) then false
  else if (first.filter (fun item => second.contains item)) = [] then false
  else if ((first.filter (fun item => second.contains item)).map
        (fun item => second.indexOf item)) ≠
      ((first.filter (fun item => second.contains item)).map
        (fun item => second.indexOf item)).insertionSort (fun a b => a ≤ b) then false
  else true

/-- Flow.resume (flow.py lines 81-100): with my_event_ids the ids of the
flow's event list (most recent first) and the incoming chain
[event.id] + event.previous_event_ids, invokes the abstract
continue_flow (a parameter here) when first_continued_second accepts the
chains, and yields None otherwise. -/
def resume (f : FlowSt) (e : FEvent) (continueFlow : FEvent → List FEvent) :
    Option (List FEvent) :=
  let myEventIds := f.events.map (fun evt => evt.fid)
  let incomingEventIds := e.fid :: e.prev
  if firstContinuedSecond incomingEventIds myEventIds then some (continueFlow e)
  else none

/-- Modelled from the spec (section 4.5): the common ids, in the order the
incoming chain lists them, sit at ascending positions in the flow's
chain. -/
def sameRelativeOrder (first second : List Nat) : Prop :=
  List.Sorted (· ≤ ·)
    ((first.filter (fun x => second.contains x)).map (fun x => second.indexOf x))

/-- Modelled from the spec (section 4.5): a valid continuation is an
identical chain, or one sharing at least one id with the flow's chain, the
shared ids appearing in the same relative order in both, with at least one
id not yet in the flow's chain. -/
def validContinuation (first second : List Nat) : Prop :=
  first = second ∨
  ((∃ x, x ∈ first ∧ x ∈ second) ∧ sameRelativeOrder first second ∧
    (∃ x, x ∈ first ∧ x ∉ second))

/-! ### Spec-side dispatch engine

Modelled from the spec (section 4.2): accept as the specification
describes it, failing with UnsupportedEvent when the listener directory
holds no listener for the event's class.  Used to compare the error
behaviour the spec demands with the behaviour of the source engine. -/

/-- Modelled from the spec (section 4.2): if the event is absent return
empty; if listenersFor(event.class) is empty fail with
UnsupportedEvent(event); otherwise dispatch the first generation and
recursively accept each of its events. -/
def acceptEngineSpec (d : Directory) : Nat → Option Ev → Except AcceptError (List Ev)
  | _, none => .ok []
  | 0, some _ => .ok []
  | fuel + 1, some e =>
    if d.listenersFor e.cls = [] then .error (.unsupportedEvent e)
    else
      let firstEvents := gen1 d e
      (firstEvents.foldl
        (fun acc ev =>
          match acc with
          | .error err => .error err
          | .ok l =>
            match acceptEngineSpec d fuel (some ev) with
            | .error err => .error err
            | .ok l2 => .ok (l ++ l2))
        (.ok firstEvents) : Except AcceptError (List Ev))

/-! ### Concrete instances used by counterexamples and witnesses -/

/-- An event of class 0 with no causal predecessors. -/
def ev0 : Ev := ⟨0, 0, []⟩

/-- Generation-1 event produced for ev0 (first branch). -/
def ev1 : Ev := ⟨1, 1, [0]⟩

/-- Generation-1 event produced for ev0 (second branch). -/
def ev2 : Ev := ⟨2, 2, [0]⟩

/-- Generation-2 descendant of ev1. -/
def ev3 : Ev := ⟨3, 3, [1]⟩

/-- Generation-3 descendant of ev1 (via ev3). -/
def ev4 : Ev := ⟨4, 4, [3]⟩

/-- Generation-2 descendant of ev2. -/
def ev5 : Ev := ⟨5, 5, [2]⟩

/-- A directory with no listener for any event class. -/
def d0 : Directory := ⟨fun _ => [], fun _ _ => []⟩

/-- A legacy directory with no listener for any event class. -/
def ld0 : LegacyDirectory := ⟨fun _ => [], fun _ _ => none⟩

/-- A directory in which ev0 triggers [ev1, ev2], ev1 triggers [ev3], ev3
triggers [ev4], ev2 triggers [ev5], and ev4, ev5 trigger nothing. -/
def d1 : Directory :=
  { listenersFor := fun c =>
      match c with
      | 0 => [10]
      | 1 => [11]
      | 2 => [12]
      | 3 => [13]
      | _ => []
    handler := fun l e =>
      match l, e.cls with
      | 10, 0 => [ev1, ev2]
      | 11, 1 => [ev3]
      | 12, 2 => [ev5]
      | 13, 3 => [ev4]
      | _, _ => [] }

/-- An adapter declaring the invariant requirement 0 ↦ 1. -/
def a2 : Adapter := ⟨0, some 5, none, true, [(0, 1)]⟩

/-- A port mapping holding only a2, under port 0. -/
def m2 : Nat → List Adapter := fun p => if p = 0 then [a2] else []

/-- An invariant context binding invariant type 0 to value 2, which
violates a2's declared requirement 0 ↦ 1. -/
def bound0 : Nat → Option Nat := fun t => if t = 0 then some 2 else none

/-- An adapter with class-level default priority 5 and an instance-level
priority() of 7. -/
def a3 : Adapter := ⟨1, some 5, some 7, true, []⟩

/-- An adapter with neither a default priority nor a priority method. -/
def a4 : Adapter := ⟨2, none, none, true, []⟩

/-- The primary-key table of a class hierarchy declaring no
@primary_key_attribute (the bare Event case). -/
def pk0 : Nat → List Nat := fun _ => []

/-- The primary-key table of a class declaring attribute 0 as its one
primary-key attribute. -/
def pk1 : Nat → List Nat := fun _ => [0]

/-- A value object with identifier 1 and no attributes. -/
def x6 : VObj := ⟨0, 1, fun _ => none⟩

/-- A value object of the same class with identifier 2. -/
def y6 : VObj := ⟨0, 2, fun _ => none⟩

/-- A value object with identifier 7 whose primary-key attribute is 1. -/
def u6 : VObj := ⟨0, 7, fun _ => some 1⟩

/-- A value object with the same identifier 7 but primary-key attribute 2. -/
def w6 : VObj := ⟨0, 7, fun _ => some 2⟩

/-- Flow event a (id 1). -/
def evA : FEvent := ⟨1, 0, [1], []⟩

/-- Flow event b (id 2), caused by a. -/
def evB : FEvent := ⟨2, 0, [2], [1]⟩

/-- Flow event c (id 3), caused by b. -/
def evC : FEvent := ⟨3, 0, [3], [2]⟩

/-- A flow event whose only predecessor id 99 is unknown to the flow. -/
def evZ : FEvent := ⟨3, 0, [3], [99]⟩

/-- The flow that absorbed a then b: its recorded id chain (most recent
first) is [2, 1]. -/
def flowAB : FlowSt := addEvent (mkFlow (some evA)) (some evB)

/-- The registration state after registering listener class 10 for event
class 0 with method 100 on the empty state. -/
def reg1 : RegState := processPendingEventListener emptyRegState 10 0 100

/-- A priority table declaring no default_priority anywhere. -/
def dpNone : Nat → Option Int := fun _ => none

/-- An abstractness table marking every listener class concrete. -/
def absNone : Nat → Bool := fun _ => false

/-- The invariant context with nothing bound. -/
def invEmpty : InvState := fun _ => none

/-! ## Theorems -/

/-- A list sorted with the stable insertion sort on a key is sorted with
respect to that key. -/
theorem sorted_insertionSort_key {α β : Type} [LinearOrder β] (f : α → β) (l : List α) :
    List.Sorted (fun a b => f a ≤ f b) (l.insertionSort (fun a b => f a ≤ f b)) :=
  @List.sorted_insertionSort α (fun a b => f a ≤ f b) _
    ⟨fun a b => le_total (f a) (f b)⟩ ⟨fun _ _ _ h1 h2 => le_trans h1 h2⟩ l

/-- C1 counterexample: for the concrete event ev0, which has no registered
listener in the concrete directory d0, the source engine PythonEDA.accept
returns the empty list as an ordinary result, while the engine the
specification describes fails with UnsupportedEvent(ev0): the claim that
accept raises UnsupportedEvent rather than returning a result silently is
false on the code. -/
theorem C1_counterexample :
    acceptEngine d0 5 (some ev0) = [] ∧
      acceptEngineSpec d0 5 (some ev0) = .error (.unsupportedEvent ev0) :=
  ⟨rfl, rfl⟩

/-- C1 amended: for every event with no registered listener, the dispatch
engine's accept returns the empty list without surfacing any error; the
UnsupportedEvent raise lives in the listener-level EventListener.accept of
the historical snapshot, which fails with UnsupportedEvent exactly in that
situation. -/
theorem C1_amended (d : Directory) (ld : LegacyDirectory) (fuel : Nat) (e : Ev)
    (hd : d.listenersFor e.cls = []) (hl : ld.listenersFor e.cls = []) :
    acceptEngine d fuel (some e) = [] ∧
      legacyAccept ld e = .error (.unsupportedEvent e) := by
  constructor
  · cases fuel with
    | zero => rfl
    | succ n => simp [acceptEngine, gen1, hd]
  · simp [legacyAccept, hl]

/-- C1 witness: the amended statement evaluated at the concrete no-listener
directories and event. -/
theorem C1_witness :
    acceptEngine d0 3 (some ev0) = [] ∧
      legacyAccept ld0 ev0 = .error (.unsupportedEvent ev0) :=
  C1_amended d0 ld0 3 ev0 rfl rfl

/-- C2 counterexample: adapter a2 declares the invariant requirement
0 ↦ 1, the active context binds invariant type 0 to 2, so a2's
requirements do not match the bound values; yet Ports.resolve_all returns
a2, while the filtering resolveAll the claim describes excludes it. -/
theorem C2_counterexample :
    matchesBoundInvariants bound0 a2 = false ∧
      resolveAll m2 0 = [a2] ∧ resolveAllSpec m2 bound0 0 = [] := by
  refine ⟨by decide, by decide, by decide⟩

/-- C2 amended: resolveAll(port) applies no invariant-context filtering:
it returns every candidate of the raw mapping for the port (a permutation
of it), sorted ascending by the sort_by_priority key. -/
theorem C2_amended (m : Nat → List Adapter) (port : Nat) :
    (resolveAll m port).Perm (m port) ∧
      List.Sorted (fun a b => sortByPriority a ≤ sortByPriority b)
        (resolveAll m port) :=
  ⟨List.perm_insertionSort _ _, sorted_insertionSort_key sortByPriority (m port)⟩

/-- C4 counterexample: adapter a3 declares a class-level default priority
of 5 and an instance-level priority() of 7; the claim demands the
class-level value 5, but Ports.sort_by_priority yields the instance-level
7. -/
theorem C4_counterexample :
    sortByPriority a3 = 7 ∧ a3.defaultPriority = some 5 ∧ (7 : Int) ≠ 5 := by
  refine ⟨by decide, by decide, by decide⟩

/-- C4 amended: the ordering key of Ports.sort_by_priority prefers the
instance-level priority() whenever a priority method is declared and
instantiation yields an instance; otherwise it uses the class-level
default priority when declared; otherwise -1 (also when a priority method
exists, instantiation fails and no default is declared). -/
theorem C4_amended (a : Adapter) :
    (a.priorityMethod = none → a.defaultPriority = none → sortByPriority a = -1) ∧
    (∀ p, a.priorityMethod = none → a.defaultPriority = some p →
      sortByPriority a = p) ∧
    (∀ q, a.priorityMethod = some q → a.instantiateOk = true →
      sortByPriority a = q) ∧
    (∀ q p, a.priorityMethod = some q → a.instantiateOk = false →
      a.defaultPriority = some p → sortByPriority a = p) ∧
    (∀ q, a.priorityMethod = some q → a.instantiateOk = false →
      a.defaultPriority = none → sortByPriority a = -1) := by
  refine ⟨?_, ?_, ?_, ?_, ?_⟩ <;> intros <;> simp_all [sortByPriority]

/-- C4 witness: the amended statement evaluated at an adapter carrying
both priorities and at one carrying neither. -/
theorem C4_witness :
    sortByPriority a3 = 7 ∧ sortByPriority a4 = -1 :=
  ⟨(C4_amended a3).2.2.1 7 rfl rfl, (C4_amended a4).1 rfl rfl⟩

/-- Generations commute with taking one dispatch round first. -/
theorem generation_succ_left (d : Directory) (e : Ev) (n : Nat) :
    generation d e (n + 1) = (gen1 d e).flatMap (fun z => generation d z n) := by
  induction n with
  | zero => simp [generation]
  | succ m ih =>
    calc generation d e (m + 2)
        = ((gen1 d e).flatMap (fun z => generation d z m)).flatMap (gen1 d) := by
          rw [show generation d e (m + 2) = (generation d e (m + 1)).flatMap (gen1 d)
            from rfl, ih]
      _ = (gen1 d e).flatMap (fun z => (generation d z m).flatMap (gen1 d)) :=
          List.flatMap_assoc ..
      _ = (gen1 d e).flatMap (fun z => generation d z (m + 1)) := rfl

/-- The engine's result at positive fuel: the first generation followed by
the depth-first cascades of its events, in order. -/
theorem acceptEngine_succ (d : Directory) (fuel : Nat) (e : Ev) :
    acceptEngine d (fuel + 1) (some e) =
      gen1 d e ++ (gen1 d e).flatMap (fun z => acceptEngine d fuel (some z)) := by
  by_cases h : gen1 d e = []
  · simp [acceptEngine, h]
  · have hlen : (gen1 d e).length > 0 := List.length_pos.mpr h
    simp [acceptEngine, hlen]

/-- Every event the engine returns belongs to some generation n ≥ 1 of the
cascade rooted at the dispatched event. -/
theorem mem_acceptEngine_generation (d : Directory) :
    ∀ (fuel : Nat) (e : Ev) (y : Ev), y ∈ acceptEngine d fuel (some e) →
      ∃ n, 1 ≤ n ∧ y ∈ generation d e n := by
  intro fuel
  induction fuel with
  | zero =>
    intro e y h
    simp [acceptEngine] at h
  | succ m ih =>
    intro e y h
    rw [acceptEngine_succ] at h
    rcases List.mem_append.mp h with h1 | h2
    · exact ⟨1, le_refl 1, by simpa [generation] using h1⟩
    · rcases List.mem_flatMap.mp h2 with ⟨z, hz, hy⟩
      rcases ih z y hy with ⟨n, hn1, hyn⟩
      refine ⟨n + 1, by omega, ?_⟩
      rw [generation_succ_left]
      exact List.mem_flatMap.mpr ⟨z, hz, hyn⟩

/-- C3 counterexample: in directory d1 the cascade of ev0 returns
[ev1, ev2, ev3, ev4, ev5]; ev5 belongs to generation 2 and ev4 to
generation 3, yet ev4 (generation 3, a deep descendant of the first
generation-1 event) appears in the returned list before ev5 (generation 2,
descendant of the second generation-1 event), so generation n does not
always precede generation n+1. -/
theorem C3_counterexample :
    acceptEngine d1 10 (some ev0) = [ev1, ev2, ev3, ev4, ev5] ∧
      ev5 ∈ generation d1 ev0 2 ∧ ev4 ∈ generation d1 ev0 3 ∧
      (acceptEngine d1 10 (some ev0)).indexOf ev4 <
        (acceptEngine d1 10 (some ev0)).indexOf ev5 :=
  ⟨by decide, by decide, by decide, by decide⟩

/-- C3 amended: the list accept returns is the first generation (in order)
followed by the full depth-first cascade of each generation-1 event in
turn, and every returned event belongs to some generation n ≥ 1; hence all
generation-1 events precede all deeper events, but for n ≥ 2 an event of
generation n+1 from an earlier generation-1 branch may precede an event of
generation n from a later branch. -/
theorem C3_amended (d : Directory) (fuel : Nat) (e : Ev) :
    acceptEngine d (fuel + 1) (some e) =
      gen1 d e ++ (gen1 d e).flatMap (fun z => acceptEngine d fuel (some z)) ∧
    ∀ y, y ∈ acceptEngine d (fuel + 1) (some e) →
      ∃ n, 1 ≤ n ∧ y ∈ generation d e n :=
  ⟨acceptEngine_succ d fuel e,
    fun y hy => mem_acceptEngine_generation d (fuel + 1) e y hy⟩

/-- C3 witness: the amended statement evaluated on the concrete cascade of
d1, with ev4 as the returned event placed in a generation. -/
theorem C3_witness :
    acceptEngine d1 10 (some ev0) =
      gen1 d1 ev0 ++ (gen1 d1 ev0).flatMap (fun z => acceptEngine d1 9 (some z)) ∧
      ∃ n, 1 ≤ n ∧ ev4 ∈ generation d1 ev0 n :=
  ⟨(C3_amended d1 9 ev0).1, (C3_amended d1 9 ev0).2 ev4 (by decide)⟩

/-- A list of naturals equals its insertion sort exactly when it is
already sorted. -/
theorem sorted_iff_eq_insertionSort (l : List Nat) :
    l = l.insertionSort (fun a b => a ≤ b) ↔ List.Sorted (fun a b => a ≤ b) l := by
  constructor
  · intro h
    rw [h]
    exact List.sorted_insertionSort _ l
  · intro h
    exact (List.Sorted.insertionSort_eq h).symm

/-- The any-loop of first_continued_second detects an element of the first
list missing from the second. -/
theorem anyNew_iff (first second : List Nat) :
    (first.any fun item => !(second.contains item)) = true ↔
      ∃ x, x ∈ first ∧ x ∉ second := by
  simp [List.any_eq_true]

/-- The common-items list of first_continued_second is non-empty exactly
when the two lists share an element. -/
theorem common_iff (first second : List Nat) :
    ¬((first.filter fun item => second.contains item) = []) ↔
      ∃ x, x ∈ first ∧ x ∈ second := by
  rw [List.filter_eq_nil_iff]
  push_neg
  simp

/-- Flow.first_continued_second agrees with the specification's notion of
a valid continuation. -/
theorem firstContinuedSecond_iff (first second : List Nat) :
    firstContinuedSecond first second = true ↔ validContinuation first second := by
  unfold firstContinuedSecond validContinuation sameRelativeOrder
  by_cases heq : first = second
  · simp [heq]
  · rw [if_neg heq]
    by_cases hnew : (first.any fun item => !(second.contains item)) = true
    · simp only [hnew, Bool.not_true, Bool.false_eq_true, if_false]
      by_cases hcom : (first.filter fun item => second.contains item) = []
      · rw [if_pos hcom]
        simp only [Bool.false_eq_true, false_iff]
        intro h
        rcases h with h | ⟨hex, _, _⟩
        · exact heq h
        · exact (common_iff first second).mpr hex hcom
      · rw [if_neg hcom]
        by_cases hsort : ((first.filter fun item => second.contains item).map
            (fun item => second.indexOf item)) =
            ((first.filter fun item => second.contains item).map
              (fun item => second.indexOf item)).insertionSort (fun a b => a ≤ b)
        · rw [if_neg (not_not_intro hsort)]
          simp only [true_iff]
          exact Or.inr ⟨(common_iff first second).mp hcom,
            (sorted_iff_eq_insertionSort _).mp hsort,
            (anyNew_iff first second).mp hnew⟩
        · rw [if_pos hsort]
          simp only [Bool.false_eq_true, false_iff]
          intro h
          rcases h with h | ⟨_, hsorted, _⟩
          · exact heq h
          · exact hsort ((sorted_iff_eq_insertionSort _).mpr hsorted)
    · have hfalse : (first.any fun item => !(second.contains item)) = false :=
        Bool.eq_false_iff.mpr hnew
      simp only [hfalse, Bool.not_false, if_true]
      simp only [Bool.false_eq_true, false_iff]
      intro h
      rcases h with h | ⟨_, _, hex⟩
      · exact heq h
      · exact hnew ((anyNew_iff first second).mpr hex)

/-- C5: Flow.resume invokes continue_flow and returns its events exactly
when [event.id] + event.previous_event_ids is a valid continuation of the
flow's recorded id chain (identical, or sharing at least one id in the
same relative order with at least one new id); in particular the flow that
absorbed a (id 1) then b (id 2) accepts the event with id 3 and previous
ids [2] and rejects the event whose previous id 99 it does not know. -/
theorem C5_theorem (f : FlowSt) (e : FEvent) (cont : FEvent → List FEvent) :
    (resume f e cont = some (cont e) ↔
      validContinuation (e.fid :: e.prev) (f.events.map (fun evt => evt.fid))) ∧
    resume flowAB evC cont = some (cont evC) ∧
    resume flowAB evZ cont = none := by
  refine ⟨?_, ?_, ?_⟩
  · unfold resume
    by_cases h : firstContinuedSecond (e.fid :: e.prev)
        (f.events.map fun evt => evt.fid) = true
    · rw [if_pos h]
      exact iff_of_true rfl ((firstContinuedSecond_iff _ _).mp h)
    · rw [if_neg h]
      exact iff_of_false (by simp)
        (fun hv => h ((firstContinuedSecond_iff _ _).mpr hv))
  · have h : firstContinuedSecond (evC.fid :: evC.prev)
        (flowAB.events.map fun evt => evt.fid) = true := by decide
    unfold resume
    rw [if_pos h]
  · have h : firstContinuedSecond (evZ.fid :: evZ.prev)
        (flowAB.events.map fun evt => evt.fid) = false := by decide
    unfold resume
    rw [if_neg (by simp [h])]

/-- C6 counterexample: x6 and y6 are two value objects of a class with no
primary-key attributes; they have different identifiers yet
ValueObject.__eq__ makes them equal, and u6 and w6 share the identifier 7
yet hash to different keys because the hash is built from the primary-key
attribute values, so identity for equality/hash purposes is not the
identifier. -/
theorem C6_counterexample :
    vEq pk0 x6 y6 = true ∧ x6.vid ≠ y6.vid ∧
      u6.vid = w6.vid ∧ vHashKey pk1 u6 ≠ vHashKey pk1 w6 :=
  ⟨by decide, by decide, by decide, by decide⟩

/-- C6 amended: equality compares the class and the declared primary-key
attribute values, ignoring the identifier (so two same-class objects with
no declared primary-key attributes are always equal); the hash key is the
tuple of primary-key attribute values, falling back to the pair
(identifier, class) only when the class declares none. -/
theorem C6_amended (pkOf : Nat → List Nat) (a b : VObj) :
    (vEq pkOf a b = true ↔
      (a.cls = b.cls ∧ ∀ k ∈ pkOf a.cls, a.attrs k = b.attrs k)) ∧
    (pkOf a.cls = [] → vHashKey pkOf a = .inl (a.vid, a.cls)) ∧
    (pkOf a.cls ≠ [] → vHashKey pkOf a = .inr ((pkOf a.cls).map (fun k => a.attrs k))) := by
  refine ⟨?_, ?_, ?_⟩
  · unfold vEq
    by_cases h : a.cls = b.cls
    · rw [if_pos h]
      simp [List.all_eq_true, h]
    · rw [if_neg h]
      simp [h]
  · intro h
    unfold vHashKey
    simp [h]
  · intro h
    unfold vHashKey
    rw [if_neg (by simp [h])]

/-- C6 witness: the amended hash clauses evaluated at a class with no
primary-key attributes and at one with a single primary-key attribute. -/
theorem C6_witness :
    vHashKey pk0 x6 = .inl (1, 0) ∧ vHashKey pk1 u6 = .inr [some 1] :=
  ⟨(C6_amended pk0 x6 y6).2.1 rfl, (C6_amended pk1 u6 w6).2.2 (by decide)⟩

/-- Processing the same pending listener triple a second time leaves the
by-event-class dictionary unchanged at every key. -/
theorem processPending_byEventClass_eq (s : RegState) (ck ev fn k : Nat) :
    (processPendingEventListener (processPendingEventListener s ck ev fn)
        ck ev fn).byEventClass k =
      (processPendingEventListener s ck ev fn).byEventClass k := by
  simp only [processPendingEventListener]
  by_cases hk : k = ev
  · subst hk
    simp only [if_pos rfl, Option.getD_some]
    by_cases hmem : ck ∈ (s.byEventClass k).getD []
    · simp [hmem]
    · simp [hmem, List.mem_append]
  · simp [hk]

/-- C7: processing the same (listener class, event class, method) triple
twice yields the same listeners_for result as processing it once, for
every queried event class (the by-event-class dictionary appends the
listener class only when absent, and listeners_for reads only that
dictionary). -/
theorem C7_theorem (s : RegState) (ck ev fn : Nat) (dp : Nat → Option Int)
    (isAbs : Nat → Bool) (q : Nat) :
    listenersFor (processPendingEventListener (processPendingEventListener s ck ev fn)
        ck ev fn) dp isAbs q =
      listenersFor (processPendingEventListener s ck ev fn) dp isAbs q := by
  unfold listenersFor
  rw [processPending_byEventClass_eq]

/-- C8: listeners_for returns exactly the registered listener classes that
are not abstract (a permutation of the filtered raw entry), sorted
ascending by _get_priority, and _get_priority yields 100 for a class
declaring no default priority. -/
theorem C8_theorem (s : RegState) (dp : Nat → Option Int) (isAbs : Nat → Bool)
    (evCls : Nat) :
    (listenersFor s dp isAbs evCls).Perm
        (((s.byEventClass evCls).getD []).filter (fun c => !isAbs c)) ∧
    List.Sorted (fun a b => getPriority dp a ≤ getPriority dp b)
      (listenersFor s dp isAbs evCls) ∧
    (∀ c ∈ listenersFor s dp isAbs evCls, isAbs c = false) ∧
    (∀ c, dp c = none → getPriority dp c = 100) := by
  unfold listenersFor
  refine ⟨?_, ?_, ?_, ?_⟩
  · exact List.Perm.filter _ (List.perm_insertionSort _ _)
  · exact List.Sorted.filter _ (sorted_insertionSort_key (getPriority dp) _)
  · intro c hc
    simpa using (List.mem_filter.mp hc).2
  · intro c h
    simp [getPriority, h]

/-- C8 witness: the abstractness and default-priority clauses evaluated on
the concrete one-listener registration state. -/
theorem C8_witness :
    absNone 10 = false ∧ getPriority dpNone 10 = 100 :=
  ⟨(C8_theorem reg1 dpNone absNone 0).2.2.1 10 (by decide),
   (C8_theorem reg1 dpNone absNone 0).2.2.2 10 rfl⟩

/-- C9: after bind(T, v, scope), apply(T, scope) returns v; and for any
other scope with nothing bound to it, apply(T, thatScope) returns the
global (None-scope) binding of T when one exists and nothing otherwise. -/
theorem C9_theorem (s : InvState) (declType v : Nat) (target s2 : Option Nat) :
    applyInv (bindInv s declType v target) declType target = some v ∧
    (s2 ≠ target → bindInv s declType v target s2 = none →
      applyInv (bindInv s declType v target) declType s2 =
        globalBinding (bindInv s declType v target) declType) := by
  constructor
  · simp [applyInv, bindInv]
  · intro _ hnone
    unfold applyInv globalBinding
    rw [hnone]

/-- C9 witness: the statement evaluated on the empty context, binding
invariant type 0 to 5 under scope 1 and applying under scopes 1 and 2. -/
theorem C9_witness :
    applyInv (bindInv invEmpty 0 5 (some 1)) 0 (some 1) = some 5 ∧
      applyInv (bindInv invEmpty 0 5 (some 1)) 0 (some 2) =
        globalBinding (bindInv invEmpty 0 5 (some 1)) 0 :=
  ⟨(C9_theorem invEmpty 0 5 (some 1) (some 2)).1,
   (C9_theorem invEmpty 0 5 (some 1) (some 2)).2 (by decide) rfl⟩

/-- C10: add_event(None) leaves the flow unchanged; the first non-None
event added becomes first_event, and once first_event is set no later
add_event changes it; adding an event equal (Python ==) to one already in
the list leaves the event list unchanged. -/
theorem C10_theorem (f : FlowSt) (e x e0 : FEvent) :
    addEvent f none = f ∧
    (f.firstEvent = none → (addEvent f (some e)).firstEvent = some e) ∧
    (f.firstEvent = some e0 → (addEvent f (some x)).firstEvent = some e0) ∧
    (f.events.any (fun y => pyEq y e) = true → (addEvent f (some e)).events = f.events) := by
  refine ⟨rfl, ?_, ?_, ?_⟩
  · intro h
    unfold addEvent
    rw [h]
    by_cases hm : f.events.any (fun y => pyEq y e) = true <;> simp [hm]
  · intro h
    unfold addEvent
    rw [h]
    by_cases hm : f.events.any (fun y => pyEq y x) = true <;> simp [hm]
  · intro h
    unfold addEvent
    simp [h]

/-- C10 witness: the statement evaluated on the concrete flow that
absorbed a then b, re-adding b and adding c on top, and on the empty
flow receiving its first event. -/
theorem C10_witness :
    addEvent flowAB none = flowAB ∧
      (addEvent (⟨none, []⟩ : FlowSt) (some evA)).firstEvent = some evA ∧
      (addEvent flowAB (some evC)).firstEvent = some evA ∧
      (addEvent flowAB (some evB)).events = flowAB.events :=
  ⟨(C10_theorem flowAB evB evC evA).1,
   (C10_theorem (⟨none, []⟩ : FlowSt) evA evC evA).2.1 rfl,
   (C10_theorem flowAB evB evC evA).2.2.1 (by decide),
   (C10_theorem flowAB evB evC evA).2.2.2 (by decide)⟩

end PythonedaDomain
